import Mathlib

/-!
Verification of the paypal_digest pipeline (summarizer, content enrichment,
state store, fetchers/aggregator, digest builder) against its specification.

The Python modules are shallowly embedded as Lean functions.  External
capabilities (the sumy LSA summarizer, requests HTTP transport, json.loads,
dateutil parsing, HTML paragraph extraction) are passed in as explicit
function parameters, so the repository's own control flow is the only thing
the definitions encode.  Python datetimes are modeled as natural numbers
(order-isomorphic on the attainable range, with 0 standing for datetime.min);
Python strings are Lean strings manipulated through their character lists so
that every definition evaluates by kernel reduction.
-/

/-- Python str.join: sep.join(parts). -/
def pyJoin (sep : String) : List String → String
  | [] => ""
  | [s] => s
  | s :: rest => s ++ sep ++ pyJoin sep rest

/-- Helper for whitespace splitting: walks the characters, accumulating the
current (reversed) token, emitting it at whitespace boundaries. -/
def splitWSAux : List Char → List Char → List (List Char)
  | [], cur => if cur = [] then [] else [cur.reverse]
  | c :: cs, cur =>
    if c.isWhitespace then
      if cur = [] then splitWSAux cs [] else cur.reverse :: splitWSAux cs []
    else splitWSAux cs (c :: cur)

/-- Python str.split() with no arguments: split on runs of whitespace,
dropping empty tokens. -/
def pySplit (s : String) : List String := (splitWSAux s.data []).map String.mk

/-- Python str.strip(): drop leading and trailing whitespace. -/
def pyStrip (s : String) : String :=
  String.mk (((s.data.dropWhile Char.isWhitespace).reverse.dropWhile Char.isWhitespace).reverse)

/-- Python truthiness of a string: "" is falsy. -/
def pyTruthyStr (s : String) : Bool := decide (s ≠ "")

/-- Python truthiness of an optional string: None and "" are falsy. -/
def pyTruthy (o : Option String) : Bool := pyTruthyStr (o.getD "")

/-- summarizer.py summarize_text.  The sumy LSA pass (parser, stemmer,
stop words, LsaSummarizer) is the external capability lsa, returning the
selected sentences for a text and sentence count; the join/strip and the
60-token fallback are the repository's code. -/
def summarize_text (lsa : String → Nat → List String) (text : String)
    (sentence_count : Nat) : String :=
  let summary := pyStrip (pyJoin " " (lsa text sentence_count))
  if summary = "" then pyJoin " " ((pySplit text).take 60) else summary

theorem mem_splitWSAux_ne_nil :
    ∀ (cs : List Char) (cur : List Char), ∀ t ∈ splitWSAux cs cur, t ≠ [] := by
  intro cs
  induction cs with
  | nil =>
    intro cur t ht
    by_cases h : cur = []
    · simp [splitWSAux, h] at ht
    · simp only [splitWSAux, if_neg h, List.mem_singleton] at ht
      subst ht
      simpa using h
  | cons c cs ih =>
    intro cur t ht
    by_cases hw : c.isWhitespace
    · by_cases h : cur = []
      · simp only [splitWSAux, hw, if_true, if_pos h] at ht
        exact ih [] t ht
      · simp only [splitWSAux, hw, if_true, if_neg h, List.mem_cons] at ht
        rcases ht with rfl | ht
        · simpa using h
        · exact ih [] t ht
    · simp only [splitWSAux, hw, if_false] at ht
      exact ih (c :: cur) t ht

theorem mem_pySplit_ne_empty (s : String) : ∀ t ∈ pySplit s, t ≠ "" := by
  intro t ht
  simp only [pySplit, List.mem_map] at ht
  obtain ⟨l, hl, rfl⟩ := ht
  have hne := mem_splitWSAux_ne_nil s.data [] l hl
  intro hcon
  apply hne
  have := congrArg String.data hcon
  simpa using this

theorem pyJoin_ne_empty (sep : String) (t : String) (ts : List String) (h : t ≠ "") :
    pyJoin sep (t :: ts) ≠ "" := by
  have hdata : t.data ≠ [] := by
    intro hd
    apply h
    cases t
    simp at hd
    simp [hd]
  cases ts with
  | nil => simpa [pyJoin] using h
  | cons u us =>
    simp only [pyJoin]
    intro hcon
    have := congrArg String.data hcon
    obtain ⟨h2, -, -⟩ : t.data = [] ∧ sep.data = [] ∧ (pyJoin sep (u :: us)).data = [] := by
      simpa using this
    exact hdata h2

/-- C1 (amended): for every input text that contains at least one
non-whitespace character (i.e. whose whitespace-split token list is
non-empty), summarize_text returns a non-empty string, whatever sentences
the LSA pass yields; the 60-token fallback covers the empty-extract case. -/
theorem summarize_text_ne_empty (lsa : String → Nat → List String) (text : String)
    (n : Nat) (h : pySplit text ≠ []) : summarize_text lsa text n ≠ "" := by
  unfold summarize_text
  by_cases hs : pyStrip (pyJoin " " (lsa text n)) = ""
  · simp only [hs, if_pos rfl]
    obtain ⟨t, ts, hts⟩ : ∃ t ts, pySplit text = t :: ts := by
      cases hp : pySplit text with
      | nil => exact absurd hp h
      | cons t ts => exact ⟨t, ts, rfl⟩
    rw [hts]
    rw [List.take_succ_cons]
    exact pyJoin_ne_empty " " t _ (mem_pySplit_ne_empty text t (hts ▸ List.mem_cons_self t ts))
  · simp [hs]

/-- The LSA pass on an input with no extractable sentences: no sentences
selected (on whitespace-only text the plaintext parser finds no sentence). -/
def c1Lsa : String → Nat → List String := fun _ _ => []

/-- C1 counterexample: the single-space input is a non-empty string, yet
summarize_text returns the empty string for it: the extractive pass yields
nothing and the fallback joins an empty token list. -/
theorem summarize_text_empty_on_whitespace :
    (" " : String) ≠ "" ∧ summarize_text c1Lsa " " 3 = "" := by
  constructor
  · decide
  · decide

/-- C1 witness: a concrete input with tokens yields a non-empty summary. -/
theorem summarize_text_ne_empty_witness :
    pySplit "PayPal expands its services" ≠ [] ∧
      summarize_text c1Lsa "PayPal expands its services" 3 ≠ "" :=
  ⟨by decide, summarize_text_ne_empty c1Lsa "PayPal expands its services" 3 (by decide)⟩

/-- models.py Article.  published_at models the optional datetime as an
optional Nat (0 is datetime.min); id is the canonical identity string. -/
structure Article where
  title : String
  url : String
  source : String
  published_at : Option Nat
  summary : Option String
  content : Option String
  author : Option String
  id : String
deriving DecidableEq

/-- models.py Article.primary_text: content when truthy, else summary. -/
def Article.primary_text (a : Article) : Option String :=
  if pyTruthy a.content then a.content else a.summary

/-- Python slicing text[:n] by characters. -/
def strTake (s : String) (n : Nat) : String := String.mk (s.data.take n)

/-- content.py enrich_article_content.  The external capability fetchPage
models requests.get plus BeautifulSoup paragraph extraction for a url:
none is a transport failure (RequestException), some ps the list of
stripped paragraph texts of the fetched page.  The Bool records whether a
network fetch was attempted. -/
def enrich_article_content (fetchPage : String → Option (List String))
    (a : Article) : Article × Bool :=
  if pyTruthy a.content then (a, false)
  else
    match fetchPage a.url with
    | none => (a, true)
    | some ps =>
      let paragraphs := ps.filter pyTruthyStr
      if paragraphs = [] then (a, true)
      else
        let text := pyJoin "\n\n" paragraphs
        let text2 := if 2000 < text.length then strTake text 2000 else text
        ({ a with content := some text2 }, true)

/-- content.py best_text. -/
def best_text (fetchPage : String → Option (List String)) (a : Article) :
    Option String :=
  (enrich_article_content fetchPage a).1.primary_text

theorem strTake_length_le (s : String) (n : Nat) : (strTake s n).length ≤ n := by
  have h : (strTake s n).length = (s.data.take n).length := rfl
  rw [h, List.length_take]
  exact Nat.min_le_left _ _

/-- C10: an Article with truthy content is returned unchanged with no fetch
attempted; an Article with empty content whose page fetch succeeds with at
least one non-empty paragraph comes back with only its content field
replaced by the joined paragraph text truncated to at most 2000 characters
(and a fetch was attempted). -/
theorem enrich_article_content_spec (f : String → Option (List String)) (a : Article) :
    (pyTruthy a.content = true → enrich_article_content f a = (a, false)) ∧
    (∀ ps, pyTruthy a.content = false → f a.url = some ps →
      ps.filter pyTruthyStr ≠ [] →
      (enrich_article_content f a).2 = true ∧
      (enrich_article_content f a).1 =
        { a with content := some (
            let text := pyJoin "\n\n" (ps.filter pyTruthyStr)
            if 2000 < text.length then strTake text 2000 else text) } ∧
      (∀ t, (enrich_article_content f a).1.content = some t → t.length ≤ 2000)) := by
  constructor
  · intro h
    simp [enrich_article_content, h]
  · intro ps hfalsy hf hne
    have hknown : enrich_article_content f a =
        ({ a with content := some (
            let text := pyJoin "\n\n" (ps.filter pyTruthyStr)
            if 2000 < text.length then strTake text 2000 else text) }, true) := by
      unfold enrich_article_content
      rw [hfalsy]
      simp only [Bool.false_eq_true, if_false, hf]
      rw [if_neg hne]
    refine ⟨by rw [hknown], by rw [hknown], ?_⟩
    intro t ht
    rw [hknown] at ht
    simp only at ht
    by_cases hlen : 2000 < (pyJoin "\n\n" (ps.filter pyTruthyStr)).length
    · rw [if_pos hlen] at ht
      have heq : t = strTake (pyJoin "\n\n" (ps.filter pyTruthyStr)) 2000 := by
        injection ht with h1
        exact h1.symm
      subst heq
      exact strTake_length_le _ _
    · rw [if_neg hlen] at ht
      have heq : t = pyJoin "\n\n" (ps.filter pyTruthyStr) := by
        injection ht with h1
        exact h1.symm
      subst heq
      omega

/-- page-scrape oracle for the C10 witness: one non-empty paragraph. -/
def c10Fetch : String → Option (List String) := fun _ => some ["PayPal shares rose."]

def c10ArtNoBody : Article :=
  { title := "PayPal up", url := "https://example.com/pp", source := "S",
    published_at := none, summary := none, content := none, author := none,
    id := "newsapi::https://example.com/pp" }

def c10ArtWithBody : Article := { c10ArtNoBody with content := some "Body text." }

/-- C10 witness: both branches of the contract hold at concrete inputs. -/
theorem enrich_article_content_spec_witness :
    enrich_article_content c10Fetch c10ArtWithBody = (c10ArtWithBody, false) ∧
    (enrich_article_content c10Fetch c10ArtNoBody).2 = true :=
  ⟨(enrich_article_content_spec c10Fetch c10ArtWithBody).1 (by decide),
   ((enrich_article_content_spec c10Fetch c10ArtNoBody).2
      ["PayPal shares rose."] (by decide) (by decide) (by decide)).1⟩

/-- state.py: how the state file presents itself to _load. -/
inductive FileRead
  | missing
  | ioError
  | content (s : String)
deriving DecidableEq

/-- outcome of json.loads on the file content: a decode failure, a JSON
object of string keys and values, or some other valid JSON value. -/
inductive JsonOutcome
  | decodeError
  | dict (entries : List (String × String))
  | nonDict
deriving DecidableEq

/-- the data a StateStore holds after loading. -/
inductive StateData
  | dict (entries : List (String × String))
  | nonDict
deriving DecidableEq

/-- an exception escaping StateStore construction. -/
inductive LoadError
  | osError
deriving DecidableEq

/-- state.py StateStore._load.  loads models json.loads; the Bool in the
result records whether the could-not-parse warning was logged.  Reading a
missing file returns empty data; an existing file is read with read_text
(an OSError is not caught); only json.JSONDecodeError is handled. -/
def StateStore_load (loads : String → JsonOutcome) :
    FileRead → Except LoadError (StateData × Bool)
  | .missing => .ok (.dict [], false)
  | .ioError => .error .osError
  | .content s =>
    match loads s with
    | .decodeError => .ok (.dict [], true)
    | .dict d => .ok (.dict d, false)
    | .nonDict => .ok (.nonDict, false)

/-- json.loads oracle that fails to decode every string. -/
def c3Loads : String → JsonOutcome := fun _ => .decodeError

/-- C3 counterexample: a state file that exists but is unreadable makes the
StateStore constructor raise the read error instead of degrading to an
empty history. -/
theorem stateStore_load_raises_on_unreadable :
    StateStore_load c3Loads FileRead.ioError = Except.error LoadError.osError := rfl

/-- C3 (amended): a missing state file loads as empty history with no
warning; a readable file whose content fails JSON parsing logs the warning
and loads as empty history; a readable JSON object loads as its entries.
(An unreadable file raises; valid non-object JSON is stored as-is.) -/
theorem stateStore_load_degrades (loads : String → JsonOutcome) (s : String) :
    StateStore_load loads FileRead.missing = Except.ok (StateData.dict [], false) ∧
    (loads s = JsonOutcome.decodeError →
      StateStore_load loads (FileRead.content s) = Except.ok (StateData.dict [], true)) ∧
    (∀ d, loads s = JsonOutcome.dict d →
      StateStore_load loads (FileRead.content s) = Except.ok (StateData.dict d, false)) := by
  refine ⟨rfl, ?_, ?_⟩
  · intro h
    simp [StateStore_load, h]
  · intro d h
    simp [StateStore_load, h]

/-- C3 witness: the corrupt-content branch at a concrete input. -/
theorem stateStore_load_degrades_witness :
    StateStore_load c3Loads (FileRead.content "not json at all") =
      Except.ok (StateData.dict [], true) :=
  (stateStore_load_degrades c3Loads "not json at all").2.1 rfl

/-- fetchers.py: one item of the parsed NewsAPI JSON payload (the fields
NewsAPIFetcher.fetch reads), assumed well-shaped apart from absent keys. -/
structure NewsApiItem where
  title : Option String
  url : Option String
  description : Option String
  content : Option String
  publishedAt : Option String
  sourceName : Option String
  author : Option String
deriving DecidableEq

/-- outcome of the NewsAPI HTTP round trip: a RequestException from
requests.get/raise_for_status, or a response whose .json() either fails
(none) or parses to the list under the articles key. -/
inductive HttpJson
  | transportError
  | ok (parsed : Option (List NewsApiItem))

/-- an exception escaping a fetcher. -/
inductive FetchError
  | jsonDecodeError
deriving DecidableEq

/-- fetchers.py NewsFetcher._canonical_id: the sha256 hex digest of
"::".join(parts).  The digest is modeled by its preimage string — an
injective stand-in; no claim depends on the hash function itself. -/
def canonical_id (parts : List String) : String := pyJoin "::" parts

/-- fetchers.py NewsAPIFetcher._parse_datetime; pd models dateutil's
parser.parse with its caught exceptions folded into none. -/
def parse_datetime (pd : String → Option Nat) (value : Option String) : Option Nat :=
  if pyTruthy value then pd (value.getD "") else none

/-- the per-item body of NewsAPIFetcher.fetch's loop: items missing a
truthy title or url are skipped, the rest normalize to an Article. -/
def newsApiArticle (pd : String → Option Nat) (it : NewsApiItem) : Option Article :=
  if pyTruthy it.title && pyTruthy it.url then
    some { title := it.title.getD "", url := it.url.getD "",
           source := it.sourceName.getD "NewsAPI",
           published_at := parse_datetime pd it.publishedAt,
           summary := it.description,
           content := it.content,
           author := it.author,
           id := canonical_id ["newsapi", it.url.getD ""] }
  else none

/-- fetchers.py NewsAPIFetcher.fetch: a falsy key skips the fetcher; a
RequestException is caught and yields zero items; but response.json() is
called outside the try block, so a JSON decode failure escapes. -/
def NewsAPIFetcher_fetch (pd : String → Option Nat) (newsapi_key : Option String)
    (http : HttpJson) : Except FetchError (List Article) :=
  if pyTruthy newsapi_key = false then Except.ok []
  else
    match http with
    | .transportError => Except.ok []
    | .ok none => Except.error FetchError.jsonDecodeError
    | .ok (some items) => Except.ok (items.filterMap (newsApiArticle pd))

/-- ASCII lowercasing of a character list (Python str.lower on the
characters the subject keywords involve). -/
def lowerChars (l : List Char) : List Char := l.map Char.toLower

def isPrefixB : List Char → List Char → Bool
  | [], _ => true
  | _ :: _, [] => false
  | a :: as, b :: bs => a == b && isPrefixB as bs

/-- Python substring test: needle in hay. -/
def containsSubB (needle : List Char) : List Char → Bool
  | [] => isPrefixB needle []
  | c :: cs => isPrefixB needle (c :: cs) || containsSubB needle cs

/-- fetchers.py _is_relevant: a case-insensitive keyword match over the
space-joined title and summary. -/
def _is_relevant (a : Article) : Bool :=
  let text := lowerChars ((a.title ++ " " ++ (a.summary.getD "")).data)
  containsSubB "paypal".data text || containsSubB "pypl".data text

/-- fetchers.py collect_articles, inner loop over one fetcher's items:
the duplicate check runs before the relevance check, and only kept items
enter seen_ids.  Returns the kept items and the updated seen set. -/
def collectItems (seen : List String) : List Article → List Article × List String
  | [] => ([], seen)
  | a :: rest =>
    if a.id ∈ seen then collectItems seen rest
    else if _is_relevant a = false then collectItems seen rest
    else
      let p := collectItems (a.id :: seen) rest
      (a :: p.1, p.2)

/-- fetchers.py collect_articles, outer loop over the fetchers with the
try/except guard: a fetcher that raises contributes nothing and the run
proceeds; seen_ids persists across fetchers. -/
def collectFetchers (seen : List String) :
    List (Except FetchError (List Article)) → List Article
  | [] => []
  | Except.error _ :: rest => collectFetchers seen rest
  | Except.ok items :: rest =>
    let p := collectItems seen items
    p.1 ++ collectFetchers p.2 rest

/-- fetchers.py collect_articles over the already-run fetcher results. -/
def collect_articles (fetches : List (Except FetchError (List Article))) :
    List Article :=
  collectFetchers [] fetches

/-- C4 (amended): a missing or empty API credential and a transport
failure each yield zero items from inside NewsAPIFetcher.fetch, and a
fetcher result that is an exception is swallowed by collect_articles'
guard, contributing zero items instead of aborting the run. -/
theorem fetch_failures_degrade (pd : String → Option Nat) (key : Option String)
    (http : HttpJson) (e : FetchError) (seen : List String)
    (rest : List (Except FetchError (List Article))) :
    NewsAPIFetcher_fetch pd none http = Except.ok [] ∧
    NewsAPIFetcher_fetch pd (some "") http = Except.ok [] ∧
    NewsAPIFetcher_fetch pd key HttpJson.transportError = Except.ok [] ∧
    collectFetchers seen (Except.error e :: rest) = collectFetchers seen rest := by
  refine ⟨rfl, rfl, ?_, rfl⟩
  by_cases h : pyTruthy key = false
  · simp [NewsAPIFetcher_fetch, h]
  · simp [NewsAPIFetcher_fetch, h]

/-- dateutil oracle for the C4 counterexample. -/
def c4Pd : String → Option Nat := fun _ => none

/-- C4 counterexample: with a credential configured and a received response
whose body fails JSON parsing, NewsAPIFetcher.fetch raises to its caller
(response.json() sits outside the try block) instead of returning zero
items. -/
theorem fetch_raises_on_bad_json :
    NewsAPIFetcher_fetch c4Pd (some "token") (HttpJson.ok none) =
      Except.error FetchError.jsonDecodeError := rfl

/-- digest.py sort key: art.published_at or datetime.min (0 here). -/
def sortKey (a : Article) : Nat :=
  match a.published_at with
  | some t => t
  | none => 0

/-- the descending comparison list.sort(key=sortKey, reverse=True) sorts by. -/
def articleGE (a b : Article) : Prop := sortKey b ≤ sortKey a

instance : DecidableRel articleGE := fun a b => Nat.decLe (sortKey b) (sortKey a)

instance : IsTotal Article articleGE := ⟨fun a b => Nat.le_total (sortKey b) (sortKey a)⟩

instance : IsTrans Article articleGE := ⟨fun _ _ _ h1 h2 => Nat.le_trans h2 h1⟩

/-- digest.py: fresh_articles.sort(key=lambda art: art.published_at or
datetime.min, reverse=True).  Python's sort is stable; insertionSort with
articleGE is the stable descending sort (ties keep input order). -/
def sortArticles (l : List Article) : List Article := List.insertionSort articleGE l

/-- state.py StateStore.seen_ids: the keys of the persisted mapping. -/
def seenKeys (st : List (String × String)) : List String := st.map Prod.fst

/-- digest.py: the list comprehension dropping articles whose id is in
state.seen_ids. -/
def freshArticles (st : List (String × String)) (articles : List Article) :
    List Article :=
  articles.filter (fun a => decide (a.id ∉ seenKeys st))

/-- digest.py DigestItem. -/
structure DigestItem where
  title : String
  source : String
  url : String
  published_at : Option Nat
  summary : String
deriving DecidableEq

/-- the DigestItem digest.py builds for an article and its best text. -/
def mkDigestItem (lsa : String → Nat → List String) (text : String) (a : Article) :
    DigestItem :=
  { title := a.title, source := a.source, url := a.url,
    published_at := a.published_at, summary := summarize_text lsa text 3 }

/-- best_text coerced as in digest.py's loop: text is falsy when best_text
returns None or the empty string. -/
def articleText (fetchPage : String → Option (List String)) (a : Article) : String :=
  (best_text fetchPage a).getD ""

def hasText (fetchPage : String → Option (List String)) (a : Article) : Bool :=
  pyTruthyStr (articleText fetchPage a)

/-- digest.py build_digest's per-article loop: skip articles with falsy
text, otherwise append the digest item and the processed id in lockstep. -/
def processArticles (fetchPage : String → Option (List String))
    (lsa : String → Nat → List String) :
    List Article → List DigestItem × List String
  | [] => ([], [])
  | a :: rest =>
    if hasText fetchPage a then
      let p := processArticles fetchPage lsa rest
      (mkDigestItem lsa (articleText fetchPage a) a :: p.1, a.id :: p.2)
    else processArticles fetchPage lsa rest

/-- Python dict assignment d[k] = v on an insertion-ordered mapping. -/
def dictInsert : List (String × String) → String → String → List (String × String)
  | [], k, v => [(k, v)]
  | (k0, v0) :: rest, k, v =>
    if k0 = k then (k, v) :: rest else (k0, v0) :: dictInsert rest k v

/-- digest.py: next((a for a in fresh_articles if a.id == article_id), None)
followed by the title-or-empty fallback. -/
def titleOf (fresh : List Article) (pid : String) : String :=
  match fresh.find? (fun a => decide (a.id = pid)) with
  | some a => a.title
  | none => ""

/-- digest.py: the mark_seen loop over processed_ids. -/
def markSeen (st0 : List (String × String)) (fresh : List Article)
    (pids : List String) : List (String × String) :=
  pids.foldl (fun st pid => dictInsert st pid (titleOf fresh pid)) st0

/-- result of build_digest: the digest items, the newly processed ids, and
the state content persisted by state.save(). -/
structure BuildResult where
  items : List DigestItem
  processedIds : List String
  finalState : List (String × String)
deriving DecidableEq

/-- digest.py build_digest, over the already-run fetcher results, the
loaded state content, and the page/LSA oracles. -/
def build_digest (fetchPage : String → Option (List String))
    (lsa : String → Nat → List String) (st0 : List (String × String))
    (fetches : List (Except FetchError (List Article))) : BuildResult :=
  let articles := collect_articles fetches
  let fresh := sortArticles (freshArticles st0 articles)
  let p := processArticles fetchPage lsa fresh
  { items := p.1, processedIds := p.2, finalState := markSeen st0 fresh p.2 }

/-- a run's externally visible outcome: the build result plus the list of
report paths written. -/
structure RunOutcome where
  result : BuildResult
  reportWrites : List String
deriving DecidableEq

/-- digest.py run: the digest document is written only when items is
non-empty. -/
def runModel (fetchPage : String → Option (List String))
    (lsa : String → Nat → List String) (st0 : List (String × String))
    (fetches : List (Except FetchError (List Article)))
    (digestPath : String) : RunOutcome :=
  let r := build_digest fetchPage lsa st0 fetches
  { result := r, reportWrites := if r.items = [] then [] else [digestPath] }

/-- __main__.py main: run, then write the rendered digest to the --output
path unconditionally whenever that argument was given. -/
def mainModel (fetchPage : String → Option (List String))
    (lsa : String → Nat → List String) (st0 : List (String × String))
    (fetches : List (Except FetchError (List Article)))
    (digestPath : String) (outputArg : Option String) : List String :=
  (runModel fetchPage lsa st0 fetches digestPath).reportWrites ++
    (match outputArg with
     | some p => [p]
     | none => [])

def c2Fetch : String → Option (List String) := fun _ => none

def c2Lsa : String → Nat → List String := fun _ _ => []

/-- C2: at a run yielding zero new items, run() writes no report document
and persists the state content unchanged — but __main__.main, invoked with
an --output override, still writes the rendered (empty) digest document to
that path, contradicting the no-document-on-empty-run contract. -/
theorem main_writes_output_on_empty_run :
    (runModel c2Fetch c2Lsa [("k", "t")] [Except.ok []] "data/digests/d.md").result.items
        = [] ∧
    (runModel c2Fetch c2Lsa [("k", "t")] [Except.ok []] "data/digests/d.md").reportWrites
        = [] ∧
    (runModel c2Fetch c2Lsa [("k", "t")] [Except.ok []] "data/digests/d.md").result.finalState
        = [("k", "t")] ∧
    mainModel c2Fetch c2Lsa [("k", "t")] [Except.ok []] "data/digests/d.md"
        (some "override.md") = ["override.md"] :=
  ⟨rfl, rfl, rfl, rfl⟩

/-- C5 (amended): in the sorted list build_digest renders, every article
bearing a timestamp strictly newer than the minimal representable one
precedes every article without a timestamp; an article timestamped exactly
datetime.min ties with timestamp-less articles and stable sort keeps their
input order. -/
theorem sortKey_eq_zero_of_none (a : Article) (h : a.published_at = none) :
    sortKey a = 0 := by
  simp [sortKey, h]

theorem sortKey_eq_of_some (a : Article) (t : Nat) (h : a.published_at = some t) :
    sortKey a = t := by
  simp [sortKey, h]

theorem sortArticles_none_after_positive (l : List Article) (i j : Nat)
    (hi : i < (sortArticles l).length) (hj : j < (sortArticles l).length) (t : Nat)
    (hni : ((sortArticles l).get ⟨i, hi⟩).published_at = none)
    (hsj : ((sortArticles l).get ⟨j, hj⟩).published_at = some t)
    (ht : 0 < t) : j < i := by
  rcases Nat.lt_or_ge j i with h | h
  · exact h
  · exfalso
    rcases Nat.eq_or_lt_of_le h with heq | hlt
    · rw [show (⟨i, hi⟩ : Fin (sortArticles l).length) = ⟨j, hj⟩ from Fin.ext heq] at hni
      rw [hsj] at hni
      exact Option.noConfusion hni
    · have hs := List.sorted_insertionSort articleGE l
      have hrel := @List.Sorted.rel_get_of_lt Article articleGE (sortArticles l) hs
        ⟨i, hi⟩ ⟨j, hj⟩ (Fin.mk_lt_mk.mpr hlt)
      unfold articleGE at hrel
      rw [sortKey_eq_zero_of_none _ hni, sortKey_eq_of_some _ _ hsj] at hrel
      omega

def c5A : Article :=
  { title := "A", url := "https://e/a", source := "s", published_at := some 100,
    summary := some "paypal", content := none, author := none, id := "ia" }

def c5B : Article := { c5A with title := "B", url := "https://e/b", published_at := none, id := "ib" }

def c5C : Article := { c5A with title := "C", url := "https://e/c", published_at := some 99, id := "ic" }

/-- C5 witness: the spec's example — A at T, B without a timestamp, C at
T minus one — renders in order A, C, B, and the timestamped A precedes the
timestamp-less B. -/
theorem sortArticles_none_after_positive_witness :
    sortArticles [c5A, c5B, c5C] = [c5A, c5C, c5B] ∧ (0 : Nat) < 2 :=
  ⟨by decide,
   sortArticles_none_after_positive [c5A, c5B, c5C] 2 0 (by decide) (by decide) 100
     (by decide) (by decide) (by decide)⟩

def c5None : Article :=
  { title := "NoDate", url := "https://e/n", source := "s", published_at := none,
    summary := some "paypal", content := none, author := none, id := "in" }

def c5Min : Article :=
  { c5None with title := "Epoch", url := "https://e/m", published_at := some 0, id := "im" }

/-- C5 counterexample: an article timestamped exactly datetime.min (0 in
the model, attainable e.g. by a feed publishing 0001-01-01T00:00:00) keys
equal to a timestamp-less article, so the stable sort leaves the
timestamp-less article before it — the timestamp-less article is not
sorted after all items that have a timestamp. -/
theorem sortArticles_none_before_min_timestamp :
    c5None.published_at = none ∧ c5Min.published_at = some 0 ∧
    sortArticles [c5None, c5Min] = [c5None, c5Min] :=
  ⟨rfl, rfl, by decide⟩

/-- Modelled from the spec: first-seen-wins dedup over a flat batch — the
first item with each identity is kept, later ones dropped.  Returns the
kept items and the updated seen set. -/
def firstSeenWins (seen : List String) : List Article → List Article × List String
  | [] => ([], seen)
  | a :: rest =>
    if a.id ∈ seen then firstSeenWins seen rest
    else
      let p := firstSeenWins (a.id :: seen) rest
      (a :: p.1, p.2)

/-- the adapters' outputs in adapter-iteration-then-item order, a failed
adapter contributing no items. -/
def flattenFetches (fetches : List (Except FetchError (List Article))) :
    List Article :=
  (fetches.map (fun f =>
    match f with
    | Except.ok l => l
    | Except.error _ => [])).flatten

theorem collectItems_eq_firstSeenWins (l : List Article) : ∀ seen,
    collectItems seen l = firstSeenWins seen (l.filter _is_relevant) := by
  induction l with
  | nil => intro seen; rfl
  | cons a rest ih =>
    intro seen
    by_cases hrel : _is_relevant a = true
    · by_cases hseen : a.id ∈ seen
      · simp [collectItems, firstSeenWins, List.filter_cons, hseen, hrel, ih]
      · simp [collectItems, firstSeenWins, List.filter_cons, hseen, hrel, ih]
    · rw [Bool.not_eq_true] at hrel
      by_cases hseen : a.id ∈ seen
      · simp [collectItems, firstSeenWins, List.filter_cons, hseen, hrel, ih]
      · simp [collectItems, firstSeenWins, List.filter_cons, hseen, hrel, ih]

theorem firstSeenWins_append (l1 l2 : List Article) : ∀ seen,
    firstSeenWins seen (l1 ++ l2) =
      ((firstSeenWins seen l1).1 ++ (firstSeenWins (firstSeenWins seen l1).2 l2).1,
        (firstSeenWins (firstSeenWins seen l1).2 l2).2) := by
  induction l1 with
  | nil => intro seen; simp [firstSeenWins]
  | cons a rest ih =>
    intro seen
    by_cases h : a.id ∈ seen
    · simp [firstSeenWins, h, ih]
    · simp [firstSeenWins, h, ih]

theorem collectFetchers_eq_firstSeenWins
    (fs : List (Except FetchError (List Article))) : ∀ seen,
    collectFetchers seen fs =
      (firstSeenWins seen ((flattenFetches fs).filter _is_relevant)).1 := by
  induction fs with
  | nil => intro seen; rfl
  | cons f rest ih =>
    intro seen
    match f with
    | Except.error e =>
      simp only [collectFetchers, flattenFetches, List.map_cons, List.flatten_cons,
        List.nil_append]
      exact ih seen
    | Except.ok items =>
      simp only [collectFetchers, flattenFetches, List.map_cons, List.flatten_cons,
        List.filter_append, firstSeenWins_append]
      rw [collectItems_eq_firstSeenWins items seen, ih]
      rfl

/-- C6 (amended): the aggregated output is exactly first-seen-wins dedup
applied to the relevance-filtered item stream in adapter-iteration-then-
item order: among items sharing an identity, the first relevant one is the
one that appears; an irrelevant earlier duplicate does not suppress a
later relevant one, because the duplicate check consults only identities
of items that were actually kept. -/
theorem collect_articles_is_firstSeenWins
    (fetches : List (Except FetchError (List Article))) :
    collect_articles fetches =
      (firstSeenWins [] ((flattenFetches fetches).filter _is_relevant)).1 :=
  collectFetchers_eq_firstSeenWins fetches []

def c6Dup1 : Article :=
  { title := "Market closes higher", url := "https://news.example/item",
    source := "Feed", published_at := none, summary := some "Tech stocks rally",
    content := none, author := none, id := "google_news::https://news.example/item" }

def c6Dup2 : Article :=
  { c6Dup1 with title := "PayPal leads payments rally", summary := some "PayPal gains" }

/-- C6 counterexample: two items share an identity (same adapter, same
url, the feed listing it twice under different headlines); the first one
matches no keyword, so it is filtered without registering its identity,
and the later duplicate is the one that appears in the aggregated output —
not the first encountered, and the later duplicate is not dropped. -/
theorem collect_articles_keeps_later_duplicate :
    c6Dup1.id = c6Dup2.id ∧ c6Dup1 ≠ c6Dup2 ∧
    collect_articles [Except.ok [c6Dup1, c6Dup2]] = [c6Dup2] :=
  ⟨rfl, by decide, by decide⟩

theorem collectItems_facts (l : List Article) : ∀ seen : List String,
    (∀ a ∈ (collectItems seen l).1, a ∈ l ∧ _is_relevant a = true ∧ a.id ∉ seen) ∧
    ((collectItems seen l).1.map Article.id).Nodup ∧
    (∀ x, x ∈ (collectItems seen l).2 ↔
      x ∈ seen ∨ x ∈ (collectItems seen l).1.map Article.id) := by
  induction l with
  | nil =>
    intro seen
    refine ⟨by simp [collectItems], by simp [collectItems], ?_⟩
    intro x
    simp [collectItems]
  | cons a rest ih =>
    intro seen
    by_cases hseen : a.id ∈ seen
    · have hcoll : collectItems seen (a :: rest) = collectItems seen rest := by
        simp [collectItems, hseen]
      rw [hcoll]
      refine ⟨?_, (ih seen).2.1, (ih seen).2.2⟩
      intro b hb
      obtain ⟨h1, h2, h3⟩ := (ih seen).1 b hb
      exact ⟨List.mem_cons_of_mem a h1, h2, h3⟩
    · by_cases hrel : _is_relevant a = true
      · have hcoll : collectItems seen (a :: rest) =
            ((a :: (collectItems (a.id :: seen) rest).1),
              (collectItems (a.id :: seen) rest).2) := by
          simp [collectItems, hseen, hrel]
        rw [hcoll]
        obtain ⟨ihm, ihn, ihs⟩ := ih (a.id :: seen)
        refine ⟨?_, ?_, ?_⟩
        · intro b hb
          rcases List.mem_cons.1 hb with rfl | hb
          · exact ⟨List.mem_cons_self _ _, hrel, hseen⟩
          · obtain ⟨h1, h2, h3⟩ := ihm b hb
            exact ⟨List.mem_cons_of_mem _ h1, h2, fun hc => h3 (List.mem_cons_of_mem _ hc)⟩
        · simp only [List.map_cons, List.nodup_cons]
          refine ⟨?_, ihn⟩
          intro hc
          obtain ⟨b, hb, hbid⟩ := List.mem_map.1 hc
          exact (ihm b hb).2.2 (hbid ▸ List.mem_cons_self _ _)
        · intro x
          rw [ihs x]
          simp only [List.mem_cons, List.map_cons]
          tauto
      · rw [Bool.not_eq_true] at hrel
        have hcoll : collectItems seen (a :: rest) = collectItems seen rest := by
          simp [collectItems, hseen, hrel]
        rw [hcoll]
        refine ⟨?_, (ih seen).2.1, (ih seen).2.2⟩
        intro b hb
        obtain ⟨h1, h2, h3⟩ := (ih seen).1 b hb
        exact ⟨List.mem_cons_of_mem a h1, h2, h3⟩

theorem collectFetchers_facts (fs : List (Except FetchError (List Article))) :
    ∀ seen : List String,
    (∀ a ∈ collectFetchers seen fs,
        a ∈ flattenFetches fs ∧ _is_relevant a = true ∧ a.id ∉ seen) ∧
    ((collectFetchers seen fs).map Article.id).Nodup := by
  induction fs with
  | nil => intro seen; simp [collectFetchers]
  | cons f rest ih =>
    intro seen
    match f with
    | Except.error e =>
      have hfl : flattenFetches (Except.error e :: rest) = flattenFetches rest := by
        simp [flattenFetches]
      have hco : collectFetchers seen (Except.error e :: rest) =
          collectFetchers seen rest := rfl
      rw [hfl, hco]
      exact ih seen
    | Except.ok items =>
      have hfl : flattenFetches (Except.ok items :: rest) =
          items ++ flattenFetches rest := by
        simp [flattenFetches]
      have hco : collectFetchers seen (Except.ok items :: rest) =
          (collectItems seen items).1 ++
            collectFetchers (collectItems seen items).2 rest := rfl
      rw [hfl, hco]
      obtain ⟨cim, cin, cis⟩ := collectItems_facts items seen
      obtain ⟨ihm, ihn⟩ := ih (collectItems seen items).2
      constructor
      · intro a ha
        rcases List.mem_append.1 ha with ha | ha
        · obtain ⟨h1, h2, h3⟩ := cim a ha
          exact ⟨List.mem_append.2 (Or.inl h1), h2, h3⟩
        · obtain ⟨h1, h2, h3⟩ := ihm a ha
          refine ⟨List.mem_append.2 (Or.inr h1), h2, ?_⟩
          intro hc
          exact h3 ((cis a.id).2 (Or.inl hc))
      · rw [List.map_append]
        rw [List.nodup_append]
        refine ⟨cin, ihn, ?_⟩
        intro x hx1 hx2
        obtain ⟨b, hb, hbid⟩ := List.mem_map.1 hx2
        have hbnot : b.id ∉ (collectItems seen items).2 := (ihm b hb).2.2
        apply hbnot
        exact (cis b.id).2 (Or.inr (hbid ▸ hx1))

/-- C7: every article in the aggregated output matches a subject keyword
case-insensitively in its joined title and summary hint; an article
matching no keyword never reaches the output, and in particular never
reaches build_digest's comparison against the persisted history, which
filters the aggregated output. -/
theorem relevance_filter_excludes (fetches : List (Except FetchError (List Article)))
    (st : List (String × String)) (a : Article) (h : _is_relevant a = false) :
    (∀ b ∈ collect_articles fetches, _is_relevant b = true) ∧
    a ∉ collect_articles fetches ∧
    a ∉ freshArticles st (collect_articles fetches) := by
  have hfacts := collectFetchers_facts fetches []
  refine ⟨fun b hb => (hfacts.1 b hb).2.1, ?_, ?_⟩
  · intro hc
    rw [(hfacts.1 a hc).2.1] at h
    exact Bool.noConfusion h
  · intro hc
    have hmem : a ∈ collect_articles fetches := (List.mem_filter.1 hc).1
    rw [(hfacts.1 a hmem).2.1] at h
    exact Bool.noConfusion h

def c7Art : Article :=
  { title := "Market closes higher", url := "https://e/mkt", source := "Wire",
    published_at := some 7, summary := some "Tech stocks rally", content := none,
    author := none, id := "newsapi::https://e/mkt" }

/-- C7 witness: the spec's example item, with no keyword in title or
summary hint, is excluded from the aggregated output. -/
theorem relevance_filter_excludes_witness :
    c7Art ∉ collect_articles [Except.ok [c7Art]] :=
  (relevance_filter_excludes [Except.ok [c7Art]] [] c7Art (by decide)).2.1

theorem processArticles_eq (f : String → Option (List String))
    (lsa : String → Nat → List String) : ∀ l : List Article,
    processArticles f lsa l =
      ((l.filter (hasText f)).map (fun a => mkDigestItem lsa (articleText f a) a),
        (l.filter (hasText f)).map Article.id) := by
  intro l
  induction l with
  | nil => rfl
  | cons a rest ih =>
    by_cases h : hasText f a = true
    · simp [processArticles, h, List.filter_cons, ih]
    · rw [Bool.not_eq_true] at h
      simp [processArticles, h, List.filter_cons, ih]

theorem mem_seenKeys_dictInsert (x k v : String) : ∀ st : List (String × String),
    x ∈ seenKeys (dictInsert st k v) ↔ x = k ∨ x ∈ seenKeys st := by
  intro st
  induction st with
  | nil => simp [dictInsert, seenKeys]
  | cons p rest ih =>
    obtain ⟨k0, v0⟩ := p
    by_cases h : k0 = k
    · subst h
      have hstep : dictInsert ((k0, v0) :: rest) k0 v = (k0, v) :: rest := by
        simp [dictInsert]
      rw [hstep]
      simp only [seenKeys, List.map_cons, List.mem_cons]
      tauto
    · have hstep : dictInsert ((k0, v0) :: rest) k v = (k0, v0) :: dictInsert rest k v := by
        simp [dictInsert, h]
      rw [hstep]
      simp only [seenKeys, List.map_cons, List.mem_cons]
      have ih2 : x ∈ List.map Prod.fst (dictInsert rest k v) ↔
          x = k ∨ x ∈ List.map Prod.fst rest := ih
      rw [ih2]
      tauto

theorem mem_seenKeys_markSeen (fresh : List Article) :
    ∀ (pids : List String) (st0 : List (String × String)) (x : String),
    x ∈ seenKeys (markSeen st0 fresh pids) ↔ x ∈ seenKeys st0 ∨ x ∈ pids := by
  intro pids
  induction pids with
  | nil =>
    intro st0 x
    simp [markSeen]
  | cons p ps ih =>
    intro st0 x
    have hstep : markSeen st0 fresh (p :: ps) =
        markSeen (dictInsert st0 p (titleOf fresh p)) fresh ps := rfl
    rw [hstep, ih, mem_seenKeys_dictInsert]
    simp only [List.mem_cons]
    tauto

theorem build_digest_items_def (f : String → Option (List String))
    (lsa : String → Nat → List String) (st0 : List (String × String))
    (fetches : List (Except FetchError (List Article))) :
    (build_digest f lsa st0 fetches).items =
      (processArticles f lsa
        (sortArticles (freshArticles st0 (collect_articles fetches)))).1 := rfl

theorem build_digest_pids_def (f : String → Option (List String))
    (lsa : String → Nat → List String) (st0 : List (String × String))
    (fetches : List (Except FetchError (List Article))) :
    (build_digest f lsa st0 fetches).processedIds =
      (processArticles f lsa
        (sortArticles (freshArticles st0 (collect_articles fetches)))).2 := rfl

theorem build_digest_state_def (f : String → Option (List String))
    (lsa : String → Nat → List String) (st0 : List (String × String))
    (fetches : List (Except FetchError (List Article))) :
    (build_digest f lsa st0 fetches).finalState =
      markSeen st0 (sortArticles (freshArticles st0 (collect_articles fetches)))
        (processArticles f lsa
          (sortArticles (freshArticles st0 (collect_articles fetches)))).2 := rfl

theorem mem_freshArticles (st : List (String × String)) (articles : List Article)
    (a : Article) :
    a ∈ freshArticles st articles ↔ a ∈ articles ∧ a.id ∉ seenKeys st := by
  simp [freshArticles, List.mem_filter]

theorem mem_sortArticles (l : List Article) (a : Article) :
    a ∈ sortArticles l ↔ a ∈ l :=
  (List.perm_insertionSort articleGE l).mem_iff

/-- C8: running build_digest a second time on the state persisted by the
first run, with the same adapter outputs and the same page/LSA oracles,
produces no digest items and records no new identities — an identity in
history is never reprocessed into a report. -/
theorem second_run_produces_nothing (f : String → Option (List String))
    (lsa : String → Nat → List String) (st0 : List (String × String))
    (fetches : List (Except FetchError (List Article))) :
    (build_digest f lsa (build_digest f lsa st0 fetches).finalState fetches).items = [] ∧
    (build_digest f lsa (build_digest f lsa st0 fetches).finalState fetches).processedIds
      = [] := by
  have hst1keys : ∀ x, x ∈ seenKeys (build_digest f lsa st0 fetches).finalState ↔
      x ∈ seenKeys st0 ∨ x ∈ (build_digest f lsa st0 fetches).processedIds := by
    intro x
    rw [build_digest_state_def, build_digest_pids_def]
    exact mem_seenKeys_markSeen _ _ _ x
  have hkey : ∀ a ∈ sortArticles
      (freshArticles (build_digest f lsa st0 fetches).finalState
        (collect_articles fetches)), hasText f a = false := by
    intro a ha
    have ha2 := (mem_freshArticles _ _ a).1 ((mem_sortArticles _ a).1 ha)
    by_contra hT
    have hTa : hasText f a = true := by
      cases h : hasText f a with
      | false => exact absurd h hT
      | true => rfl
    have hnot0 : a.id ∉ seenKeys st0 := fun hc => ha2.2 ((hst1keys a.id).2 (Or.inl hc))
    have ha1 : a ∈ freshArticles st0 (collect_articles fetches) :=
      (mem_freshArticles _ _ a).2 ⟨ha2.1, hnot0⟩
    have hpid : a.id ∈ (build_digest f lsa st0 fetches).processedIds := by
      rw [build_digest_pids_def, processArticles_eq]
      exact List.mem_map.2
        ⟨a, List.mem_filter.2 ⟨(mem_sortArticles _ a).2 ha1, hTa⟩, rfl⟩
    exact ha2.2 ((hst1keys a.id).2 (Or.inr hpid))
  have hfe : (sortArticles
      (freshArticles (build_digest f lsa st0 fetches).finalState
        (collect_articles fetches))).filter (hasText f) = [] :=
    List.filter_eq_nil_iff.2 (fun a ha => by simp [hkey a ha])
  constructor
  · rw [build_digest_items_def, processArticles_eq]
    simp [hfe]
  · rw [build_digest_pids_def, processArticles_eq]
    simp [hfe]

/-- C9: the digest items and the processed ids are built in lockstep from
exactly the fresh articles with truthy best text, the identities newly
recorded into the state are exactly the processed ids (none of which was
already in history), and a fresh article whose best text is falsy is
recorded nowhere — its identity stays out of the persisted history, so it
stays eligible on every future run. -/
theorem recorded_iff_rendered (f : String → Option (List String))
    (lsa : String → Nat → List String) (st0 : List (String × String))
    (fetches : List (Except FetchError (List Article))) :
    ((build_digest f lsa st0 fetches).items =
      ((sortArticles (freshArticles st0 (collect_articles fetches))).filter
        (hasText f)).map (fun a => mkDigestItem lsa (articleText f a) a) ∧
     (build_digest f lsa st0 fetches).processedIds =
      ((sortArticles (freshArticles st0 (collect_articles fetches))).filter
        (hasText f)).map Article.id) ∧
    (∀ x, x ∈ seenKeys (build_digest f lsa st0 fetches).finalState ↔
      x ∈ seenKeys st0 ∨ x ∈ (build_digest f lsa st0 fetches).processedIds) ∧
    (∀ x, x ∈ (build_digest f lsa st0 fetches).processedIds → x ∉ seenKeys st0) ∧
    (∀ a, a ∈ collect_articles fetches → a.id ∉ seenKeys st0 →
      hasText f a = false →
      a.id ∉ seenKeys (build_digest f lsa st0 fetches).finalState) := by
  have hitems : (build_digest f lsa st0 fetches).items =
      ((sortArticles (freshArticles st0 (collect_articles fetches))).filter
        (hasText f)).map (fun a => mkDigestItem lsa (articleText f a) a) := by
    rw [build_digest_items_def, processArticles_eq]
  have hpids : (build_digest f lsa st0 fetches).processedIds =
      ((sortArticles (freshArticles st0 (collect_articles fetches))).filter
        (hasText f)).map Article.id := by
    rw [build_digest_pids_def, processArticles_eq]
  have hkeys : ∀ x, x ∈ seenKeys (build_digest f lsa st0 fetches).finalState ↔
      x ∈ seenKeys st0 ∨ x ∈ (build_digest f lsa st0 fetches).processedIds := by
    intro x
    rw [build_digest_state_def, build_digest_pids_def]
    exact mem_seenKeys_markSeen _ _ _ x
  have hnew : ∀ x, x ∈ (build_digest f lsa st0 fetches).processedIds →
      x ∉ seenKeys st0 := by
    intro x hx
    rw [hpids] at hx
    obtain ⟨b, hb, rfl⟩ := List.mem_map.1 hx
    have hbf := (List.mem_filter.1 hb).1
    have hb2 := (mem_freshArticles _ _ b).1 ((mem_sortArticles _ b).1 hbf)
    exact hb2.2
  refine ⟨⟨hitems, hpids⟩, hkeys, hnew, ?_⟩
  intro a hmem hnot0 hfalsy hc
  rcases (hkeys a.id).1 hc with hc0 | hcp
  · exact hnot0 hc0
  · rw [hpids] at hcp
    obtain ⟨b, hb, hbid⟩ := List.mem_map.1 hcp
    have hbT := (List.mem_filter.1 hb).2
    have hbf := (List.mem_filter.1 hb).1
    have hb2 := (mem_freshArticles _ _ b).1 ((mem_sortArticles _ b).1 hbf)
    have hnodup := (collectFetchers_facts fetches []).2
    have hba : b = a := List.inj_on_of_nodup_map hnodup hb2.1 hmem hbid
    rw [hba] at hbT
    rw [hfalsy] at hbT
    exact Bool.noConfusion hbT

def c9Fetch : String → Option (List String) := fun _ => none

def c9Lsa : String → Nat → List String := fun _ _ => []

/-- a relevant article carrying no usable text: no content, no summary,
and its page fetch fails. -/
def c9Art : Article :=
  { title := "PayPal teaser", url := "https://e/teaser", source := "s",
    published_at := some 5, summary := none, content := none, author := none,
    id := "newsapi::https://e/teaser" }

/-- C9 witness: the textless fresh article reaches aggregation but its
identity is absent from the persisted history after the run. -/
theorem recorded_iff_rendered_witness :
    c9Art.id ∉ seenKeys (build_digest c9Fetch c9Lsa [] [Except.ok [c9Art]]).finalState :=
  (recorded_iff_rendered c9Fetch c9Lsa [] [Except.ok [c9Art]]).2.2.2 c9Art
    (by decide) (by decide) (by decide)
